import Mathlib

/-!
# Verification of the radiance-cascades GI engine

Shallow embedding of `src/src/RadianceCascades.cpp` and
`src/include/RadianceCascades.h` (class `RadianceCascades`): the cascade
resolution schedule, the per-cascade texture formats, the engine state
(screen size, cascade dimension vectors, cascade and temporal buffer
contents, the temporal flag and the frame counter), and the operations
`compute`, `blur`, `resize`, `cleanup`, `resetTemporalAccumulation`,
`setTemporalAccumulation` and the cascade accessors.

Machine integers: all widths, heights and counts in the source are C `int`s
holding small non-negative values (screen dimensions, cascade counts); they
are modelled as `Nat`, with `>>` becoming division by a power of two and
`std::max` becoming `Nat.max`. The `activeCascades` parameter of `compute`
and `blur` is genuinely signed (the `-1` default sentinel and the
`i >= 0` loop condition matter), so it is modelled as `Int`.

GPU buffers are modelled by their abstract contents (`BufVal`): a texture
allocated by `glTexImage2D(..., NULL)` and never cleared is `uninit`, a
buffer cleared to black is `zero`, and a cascade result rendered at frame
`f` for level `l` is `result f l`. The `compute` operation additionally
returns the trace of per-level pass events (distance bounds, which cascade
texture was bound as `previousCascade`, which temporal texture was bound as
history), read off the GL calls in the source.
-/

namespace VibeGI

/-- Per-cascade resolution schedule of `RadianceCascades::setupCascades`
(`src/src/RadianceCascades.cpp` lines 54–75), applied independently to the
screen width and to the screen height:
cascade 0 and 1 use the full screen dimension, cascade 2 uses
`(dim * 3) >> 2`, and cascade `i >= 3` uses `max(128, dim >> (i - 1))`. -/
def cascadeRes (dim : Nat) : Nat → Nat
  | 0 => dim
  | 1 => dim
  | 2 => dim * 3 / 4
  | i + 3 => max 128 (dim / 2 ^ (i + 2))

/-- Internal texture format chosen per cascade in `setupCascades` (line 79):
`GL_RGBA32F` for cascades 0 and 1, `GL_RGBA16F` for the rest. -/
inductive TexFormat where
  | rgba32f : TexFormat
  | rgba16f : TexFormat
deriving DecidableEq, Repr

/-- Format schedule: `(i < 2) ? GL_RGBA32F : GL_RGBA16F`. -/
def cascadeFormat (i : Nat) : TexFormat :=
  if i < 2 then TexFormat.rgba32f else TexFormat.rgba16f

/-- Abstract contents of a GPU render target. -/
inductive BufVal where
  /-- Allocated with `glTexImage2D(..., NULL)` and never cleared. -/
  | uninit : BufVal
  /-- Cleared to black (`glClearColor(0,0,0,·); glClear`). -/
  | zero : BufVal
  /-- Radiance result rendered at frame `f` for cascade level `l`. -/
  | result (f l : Nat) : BufVal
  /-- Output of one separable blur pass (`dir = 0` horizontal, `dir = 1`
  vertical) over input `v`. -/
  | blurPass (dir : Nat) (v : BufVal) : BufVal
deriving DecidableEq, Repr

/-- State of a `RadianceCascades` instance: the fields of the class that the
cascade pipeline reads and writes. `cascadeFmt` records the internal format
passed to `glTexImage2D` for each cascade texture; `cascadeFBOAttach` records,
for each cascade FBO, the index of the cascade texture attached to it. -/
structure GIState where
  screenW : Nat
  screenH : Nat
  n : Nat
  cascadeW : List Nat
  cascadeH : List Nat
  cascadeFmt : List TexFormat
  cascadeFBOAttach : List Nat
  cascadeBuf : List BufVal
  tempBlurBuf : List BufVal
  temporalBuf : List BufVal
  useTemporalBuffer : Bool
  frameCounter : Nat
deriving DecidableEq, Repr

/-- The setup routines run by the constructor and by `resize`
(`setupCascades`, `setupBlurTargets`, `setupTemporalBuffers`): rebuild every
cascade-indexed resource from the current `screenW`, `screenH`, `n`.
Cascade textures are allocated uninitialised (line 81, data `NULL`);
temporal buffers are cleared to black at creation (lines 224–225). -/
def setupAll (s : GIState) : GIState :=
  { s with
    cascadeW := (List.range s.n).map (cascadeRes s.screenW)
    cascadeH := (List.range s.n).map (cascadeRes s.screenH)
    cascadeFmt := (List.range s.n).map cascadeFormat
    cascadeFBOAttach := List.range s.n
    cascadeBuf := List.replicate s.n BufVal.uninit
    tempBlurBuf := List.replicate s.n BufVal.uninit
    temporalBuf := List.replicate s.n BufVal.zero }

/-- `RadianceCascades::cleanup` (lines 307–338): deletes every GL resource.
In the model the per-cascade resource lists are released. -/
def cleanup (s : GIState) : GIState :=
  { s with
    cascadeW := []
    cascadeH := []
    cascadeFmt := []
    cascadeFBOAttach := []
    cascadeBuf := []
    tempBlurBuf := []
    temporalBuf := [] }

/-- The constructor (line 11): stores the dimensions and cascade count, sets
`useTemporalBuffer(true)` and `frameCounter(0)`, then runs the setup
routines. -/
def init (w h n : Nat) : GIState :=
  setupAll
    { screenW := w, screenH := h, n := n
      cascadeW := [], cascadeH := [], cascadeFmt := []
      cascadeFBOAttach := [], cascadeBuf := [], tempBlurBuf := []
      temporalBuf := [], useTemporalBuffer := true, frameCounter := 0 }

/-- `RadianceCascades::getCascadeWidth` (lines 460–462) is an unchecked
`cascadeWidths[cascade]`; out-of-range access is undefined behaviour,
modelled as `none`. -/
def getCascadeWidth (s : GIState) (cascade : Nat) : Option Nat :=
  s.cascadeW[cascade]?

/-- `RadianceCascades::getCascadeHeight` (lines 463–465), unchecked. -/
def getCascadeHeight (s : GIState) (cascade : Nat) : Option Nat :=
  s.cascadeH[cascade]?

/-- `RadianceCascades::getTexture` (lines 436–438): unchecked
`cascadeTextures[cascade]`; the texture object is modelled by its
contents. -/
def getTexture (s : GIState) (cascade : Nat) : Option BufVal :=
  s.cascadeBuf[cascade]?

/-- `RadianceCascades::getCascadeFBO` (lines 439–441): unchecked
`cascadeFBOs[cascade]`; the FBO object is modelled by the index of its
attached cascade texture. -/
def getCascadeFBO (s : GIState) (cascade : Nat) : Option Nat :=
  s.cascadeFBOAttach[cascade]?

/-- One radiance pass of the `compute` loop (lines 371–409), as observed
through its GL calls: the level rendered, the `cascadeWidths[i]` /
`cascadeHeights[i]` reads (`none` models an out-of-bounds vector access),
the `minDist` / `maxDist` uniforms (`pow(2, i)` and `pow(2, i+1)`, exact
powers of two), the index of the cascade texture bound as
`previousCascade` (line 385: bound iff `i < numCascades - 1`), and the
temporal texture bound as history together with its contents at bind time
(line 392: bound iff `useTemporalBuffer && frameCounter > 0`). -/
structure PassEvent where
  level : Nat
  resX : Option Nat
  resY : Option Nat
  minDist : Nat
  maxDist : Nat
  prevBound : Option Nat
  temporalBound : Option (Nat × BufVal)
deriving DecidableEq, Repr

/-- Body of the `compute` loop for level `i` (lines 371–409). `fc0` is the
frame counter at entry to `compute` (it is incremented only after the
loop). Renders into `cascadeFBOs[i]` (writing `cascadeBuf[i]`), and when
`useTemporalBuffer` holds, blits the fresh result into `temporalBuf[i]`
(lines 404–408). -/
def passLevel (fc0 : Nat) (s : GIState) (i : Nat) : GIState × PassEvent :=
  let newVal := BufVal.result fc0 i
  let ev : PassEvent :=
    { level := i
      resX := s.cascadeW[i]?
      resY := s.cascadeH[i]?
      minDist := 2 ^ i
      maxDist := 2 ^ (i + 1)
      prevBound := if i + 1 < s.n then some (i + 1) else none
      temporalBound :=
        if s.useTemporalBuffer ∧ 0 < fc0 then
          some (i, s.temporalBuf.getD i BufVal.uninit)
        else none }
  let s1 := { s with cascadeBuf := s.cascadeBuf.set i newVal }
  let s2 :=
    if s1.useTemporalBuffer then
      { s1 with temporalBuf := s1.temporalBuf.set i newVal }
    else s1
  (s2, ev)

/-- Runs `passLevel` over a list of levels, accumulating the event trace. -/
def computeAux (fc0 : Nat) : GIState → List Nat → GIState × List PassEvent
  | s, [] => (s, [])
  | s, i :: rest =>
    let p := passLevel fc0 s i
    let r := computeAux fc0 p.1 rest
    (r.1, p.2 :: r.2)

/-- The levels visited by the `compute` loop
`for (int i = activeCascades - 1; i >= 0; --i)` after the `-1` default
sentinel has been replaced by `numCascades` (line 355): `a-1` down to `0`
when `a > 0`, nothing when `a ≤ 0`. -/
def activeLevelsDesc (n : Nat) (activeCascades : Int) : List Nat :=
  let a : Int := if activeCascades = -1 then (n : Int) else activeCascades
  (List.range a.toNat).reverse

/-- `RadianceCascades::compute` (lines 354–414): substitute the `-1`
sentinel, run the radiance pass for each level from `activeCascades - 1`
down to `0`, then increment the frame counter. Returns the new state and
the per-level event trace. -/
def compute (s : GIState) (activeCascades : Int) : GIState × List PassEvent :=
  let r := computeAux s.frameCounter s (activeLevelsDesc s.n activeCascades)
  ({ r.1 with frameCounter := r.1.frameCounter + 1 }, r.2)

/-- One blur iteration as observed through its GL calls: the level and the
`cascadeWidths[i]` / `cascadeHeights[i]` reads (`none` models an
out-of-bounds vector access). -/
structure BlurEvent where
  level : Nat
  resX : Option Nat
  resY : Option Nat
deriving DecidableEq, Repr

/-- Body of the `blur` loop for level `i` (lines 239–283): horizontal pass
(`blurDirection = 0`) renders `cascadeTextures[i]` into `tempBlurFBOs[i]`,
vertical pass (`blurDirection = 1`) renders `tempBlurTextures[i]` back into
`cascadeFBOs[i]`. -/
def blurLevel (s : GIState) (i : Nat) : GIState × BlurEvent :=
  let ev : BlurEvent := { level := i, resX := s.cascadeW[i]?, resY := s.cascadeH[i]? }
  let hres := BufVal.blurPass 0 (s.cascadeBuf.getD i BufVal.uninit)
  let s1 := { s with tempBlurBuf := s.tempBlurBuf.set i hres }
  let vres := BufVal.blurPass 1 (s1.tempBlurBuf.getD i BufVal.uninit)
  let s2 := { s1 with cascadeBuf := s1.cascadeBuf.set i vres }
  (s2, ev)

/-- Runs `blurLevel` over a list of levels, accumulating the trace. -/
def blurAux : GIState → List Nat → GIState × List BlurEvent
  | s, [] => (s, [])
  | s, i :: rest =>
    let p := blurLevel s i
    let r := blurAux p.1 rest
    (r.1, p.2 :: r.2)

/-- `RadianceCascades::blur` (lines 233–287): substitute the `-1` sentinel,
then blur levels `0` up to `activeCascades - 1` in ascending order. -/
def blur (s : GIState) (activeCascades : Int) : GIState × List BlurEvent :=
  let a : Int := if activeCascades = -1 then (s.n : Int) else activeCascades
  blurAux s (List.range a.toNat)

/-- `RadianceCascades::resetTemporalAccumulation` (lines 416–427): zero the
frame counter and clear each of the `numCascades` temporal buffers. -/
def resetTemporalAccumulation (s : GIState) : GIState :=
  { s with
    frameCounter := 0
    temporalBuf := (List.range s.n).foldl (fun b i => b.set i BufVal.zero) s.temporalBuf }

/-- `RadianceCascades::setTemporalAccumulation` (lines 429–434): store the
flag; when disabling, immediately run a full temporal reset. -/
def setTemporalAccumulation (s : GIState) (enabled : Bool) : GIState :=
  let s1 := { s with useTemporalBuffer := enabled }
  if enabled then s1 else resetTemporalAccumulation s1

/-- `RadianceCascades::resize` (lines 340–352): store the new dimensions,
zero the frame counter, run `cleanup()`, then re-run every setup routine. -/
def resize (s : GIState) (w h : Nat) : GIState :=
  setupAll (cleanup { s with screenW := w, screenH := h, frameCounter := 0 })

/-- Well-formedness: each cascade-indexed vector has `numCascades`
entries, as established by every setup routine. -/
def WF (s : GIState) : Prop :=
  s.cascadeW.length = s.n ∧ s.cascadeH.length = s.n ∧
  s.cascadeBuf.length = s.n ∧ s.temporalBuf.length = s.n

/-! ## Schedule lemmas for claim C1 -/

theorem cascadeRes_floor (dim : Nat) (hdim : 171 ≤ dim) (i : Nat) :
    128 ≤ cascadeRes dim i := by
  match i with
  | 0 => exact le_trans (by norm_num) hdim
  | 1 => exact le_trans (by norm_num) hdim
  | 2 =>
    have h : 513 ≤ dim * 3 := by omega
    calc 128 = 513 / 4 := by norm_num
    _ ≤ dim * 3 / 4 := Nat.div_le_div_right h
  | i + 3 => exact le_max_left _ _

theorem cascadeRes_antitone (dim : Nat) (hdim : 171 ≤ dim) (i : Nat) :
    cascadeRes dim (i + 1) ≤ cascadeRes dim i := by
  match i with
  | 0 => exact le_refl _
  | 1 =>
    show dim * 3 / 4 ≤ dim
    calc dim * 3 / 4 ≤ dim * 4 / 4 := Nat.div_le_div_right (by omega)
    _ = dim := Nat.mul_div_cancel dim (by omega)
  | 2 =>
    show max 128 (dim / 2 ^ 2) ≤ dim * 3 / 4
    apply max_le
    · exact cascadeRes_floor dim hdim 2
    · calc dim / 2 ^ 2 = dim * 1 / 4 := by norm_num
      _ ≤ dim * 3 / 4 := Nat.div_le_div_right (by omega)
  | j + 3 =>
    show max 128 (dim / 2 ^ (j + 3)) ≤ max 128 (dim / 2 ^ (j + 2))
    apply max_le (le_max_left _ _)
    exact le_max_of_le_right
      (Nat.div_le_div_left (Nat.pow_le_pow_right (by omega) (by omega))
        (Nat.pos_pow_of_pos _ (by omega)))

theorem init_cascadeW_get (w h n i : Nat) (hi : i < n) :
    getCascadeWidth (init w h n) i = some (cascadeRes w i) := by
  simp [getCascadeWidth, init, setupAll, List.getElem?_map, List.getElem?_range, hi]

theorem init_cascadeH_get (w h n i : Nat) (hi : i < n) :
    getCascadeHeight (init w h n) i = some (cascadeRes h i) := by
  simp [getCascadeHeight, init, setupAll, List.getElem?_map, List.getElem?_range, hi]

/-- C1 counterexample: with width = height = 150 and 4 cascades, cascade 2 is
`150*3>>2 = 112`, below the 128 floor, and cascade 3 is
`max(128, 150>>2) = 128 > 112`, breaking monotonicity. -/
theorem c1_schedule_counterexample :
    getCascadeWidth (init 150 150 4) 2 = some 112 ∧
    getCascadeWidth (init 150 150 4) 3 = some 128 ∧
    ¬ (∀ wi wj : Nat, getCascadeWidth (init 150 150 4) 3 = some wi →
        getCascadeWidth (init 150 150 4) 2 = some wj → wi ≤ wj) ∧
    ¬ (∀ wj : Nat, getCascadeWidth (init 150 150 4) 2 = some wj → 128 ≤ wj) := by
  refine ⟨by decide, by decide, ?_, ?_⟩
  · intro hmono
    have := hmono 128 112 (by decide) (by decide)
    omega
  · intro hfloor
    have := hfloor 112 (by decide)
    omega

/-- C1 (amended): for screen dimensions at least 171 in each axis, for every
cascade count `n` and every `i` in `[1, n)`, cascade `i`'s stored width and
height are at most cascade `i-1`'s, and every cascade's width and height are
at least the 128 floor. -/
theorem c1_cascade_monotone_floor (w h n : Nat) (hw : 171 ≤ w) (hh : 171 ≤ h) :
    (∀ i, 1 ≤ i → i < n →
      ∀ wi wj hi hj : Nat,
        getCascadeWidth (init w h n) i = some wi →
        getCascadeWidth (init w h n) (i - 1) = some wj →
        getCascadeHeight (init w h n) i = some hi →
        getCascadeHeight (init w h n) (i - 1) = some hj →
        wi ≤ wj ∧ hi ≤ hj) ∧
    (∀ j, j < n →
      ∀ wj hj : Nat,
        getCascadeWidth (init w h n) j = some wj →
        getCascadeHeight (init w h n) j = some hj →
        128 ≤ wj ∧ 128 ≤ hj) := by
  constructor
  · intro i h1 hi wi wj hi' hj' hwi hwj hhi hhj
    rw [init_cascadeW_get w h n i hi] at hwi
    rw [init_cascadeW_get w h n (i - 1) (by omega)] at hwj
    rw [init_cascadeH_get w h n i hi] at hhi
    rw [init_cascadeH_get w h n (i - 1) (by omega)] at hhj
    obtain ⟨i', rfl⟩ : ∃ i', i = i' + 1 := ⟨i - 1, by omega⟩
    simp only [Option.some_inj] at hwi hwj hhi hhj
    subst hwi hwj hhi hhj
    simp only [Nat.add_sub_cancel]
    exact ⟨cascadeRes_antitone w hw i', cascadeRes_antitone h hh i'⟩
  · intro j hj wj hj' hwj hhj
    rw [init_cascadeW_get w h n j hj] at hwj
    rw [init_cascadeH_get w h n j hj] at hhj
    simp only [Option.some_inj] at hwj hhj
    subst hwj hhj
    exact ⟨cascadeRes_floor w hw j, cascadeRes_floor h hh j⟩

/-! ## Trace lemmas for the compute and blur loops -/

theorem passLevel_fields (fc : Nat) (s : GIState) (i : Nat) :
    (passLevel fc s i).1.cascadeW = s.cascadeW ∧
    (passLevel fc s i).1.cascadeH = s.cascadeH ∧
    (passLevel fc s i).1.n = s.n ∧
    (passLevel fc s i).1.useTemporalBuffer = s.useTemporalBuffer ∧
    (passLevel fc s i).1.frameCounter = s.frameCounter := by
  simp only [passLevel]
  split <;> exact ⟨rfl, rfl, rfl, rfl, rfl⟩

theorem computeAux_map_level (fc : Nat) (s : GIState) (ls : List Nat) :
    ((computeAux fc s ls).2).map PassEvent.level = ls := by
  induction ls generalizing s with
  | nil => rfl
  | cons i rest ih =>
    simp only [computeAux, List.map_cons, List.cons.injEq]
    exact ⟨rfl, ih _⟩

theorem computeAux_events (fc : Nat) (s : GIState) (ls : List Nat) :
    ∀ e ∈ (computeAux fc s ls).2,
      e.minDist = 2 ^ e.level ∧ e.maxDist = 2 ^ (e.level + 1) ∧
      e.resX = s.cascadeW[e.level]? ∧ e.resY = s.cascadeH[e.level]? := by
  induction ls generalizing s with
  | nil => intro e he; simp [computeAux] at he
  | cons i rest ih =>
    intro e he
    simp only [computeAux, List.mem_cons] at he
    rcases he with he | he
    · subst he; exact ⟨rfl, rfl, rfl, rfl⟩
    · have h := ih (passLevel fc s i).1 e he
      rw [(passLevel_fields fc s i).1, (passLevel_fields fc s i).2.1] at h
      exact h

theorem computeAux_preserves_get (fc : Nat) (s : GIState) (ls : List Nat)
    (j : Nat) (hj : ∀ i ∈ ls, i ≠ j) :
    (computeAux fc s ls).1.cascadeBuf[j]? = s.cascadeBuf[j]? ∧
    (computeAux fc s ls).1.temporalBuf[j]? = s.temporalBuf[j]? := by
  induction ls generalizing s with
  | nil => exact ⟨rfl, rfl⟩
  | cons i rest ih =>
    have hij : i ≠ j := hj i (List.mem_cons_self i rest)
    have hrest : ∀ i' ∈ rest, i' ≠ j := fun i' h => hj i' (List.mem_cons_of_mem i h)
    have hstep : (passLevel fc s i).1.cascadeBuf[j]? = s.cascadeBuf[j]? ∧
        (passLevel fc s i).1.temporalBuf[j]? = s.temporalBuf[j]? := by
      simp only [passLevel]
      split
      · exact ⟨List.getElem?_set_ne hij, List.getElem?_set_ne hij⟩
      · exact ⟨List.getElem?_set_ne hij, rfl⟩
    have h := ih (passLevel fc s i).1 hrest
    simp only [computeAux]
    exact ⟨h.1.trans hstep.1, h.2.trans hstep.2⟩

theorem blurLevel_fields (s : GIState) (i : Nat) :
    (blurLevel s i).1.cascadeW = s.cascadeW ∧ (blurLevel s i).1.cascadeH = s.cascadeH :=
  ⟨rfl, rfl⟩

theorem blurAux_map_level (s : GIState) (ls : List Nat) :
    ((blurAux s ls).2).map BlurEvent.level = ls := by
  induction ls generalizing s with
  | nil => rfl
  | cons i rest ih =>
    simp only [blurAux, List.map_cons, List.cons.injEq]
    exact ⟨rfl, ih _⟩

theorem blurAux_events (s : GIState) (ls : List Nat) :
    ∀ e ∈ (blurAux s ls).2,
      e.resX = s.cascadeW[e.level]? ∧ e.resY = s.cascadeH[e.level]? := by
  induction ls generalizing s with
  | nil => intro e he; simp [blurAux] at he
  | cons i rest ih =>
    intro e he
    simp only [blurAux, List.mem_cons] at he
    rcases he with he | he
    · subst he; exact ⟨rfl, rfl⟩
    · exact ih (blurLevel s i).1 e he

theorem setFold_length (ls : List Nat) (buf : List BufVal) :
    (ls.foldl (fun b j => b.set j BufVal.zero) buf).length = buf.length := by
  induction ls generalizing buf with
  | nil => rfl
  | cons x xs ih => rw [List.foldl_cons, ih, List.length_set]

theorem clearFold_getElem (buf : List BufVal) (n : Nat) :
    ∀ i, i < n → i < buf.length →
      ((List.range n).foldl (fun b j => b.set j BufVal.zero) buf)[i]? = some BufVal.zero := by
  induction n with
  | zero => intro i hi; omega
  | succ m ih =>
    intro i hi hlen
    rw [List.range_succ, List.foldl_append, List.foldl_cons, List.foldl_nil]
    rcases Nat.lt_or_ge i m with h | h
    · rw [List.getElem?_set_ne (by omega)]
      exact ih i h hlen
    · have hi' : i = m := by omega
      subst hi'
      apply List.getElem?_set_eq_of_lt
      rw [setFold_length]
      omega

/-- Witness for `c1_cascade_monotone_floor` at `w = h = 800`, `n = 6`,
`i = 3`, `j = 2`. -/
theorem c1_cascade_monotone_floor_witness :
    (171 ≤ 800) ∧
    (getCascadeWidth (init 800 800 6) 3 = some 200 ∧
      getCascadeWidth (init 800 800 6) 2 = some 600 ∧
      200 ≤ 600 ∧ 128 ≤ 600) := by
  refine ⟨by norm_num, by decide, by decide, ?_, ?_⟩
  · exact ((c1_cascade_monotone_floor 800 800 6 (by norm_num) (by norm_num)).1
      3 (by norm_num) (by norm_num) 200 600 200 600
      (by decide) (by decide) (by decide) (by decide)).1
  · exact ((c1_cascade_monotone_floor 800 800 6 (by norm_num) (by norm_num)).2
      2 (by norm_num) 600 600 (by decide) (by decide)).1

/-- C2: with `numCascades = 6` and `activeCascades = 3`, the coarsest active
level (`i = 2`) does bind cascade level 3's texture as the spatial-hierarchy
input `previousCascade` — level 3 is outside the active range `[0, 3)` and
its texture is still untouched (allocated uninitialised) — because the guard
at line 385 compares against `numCascades - 1`, not against the active
count. This refutes the claim that no level with index `>= activeCascades`
is ever bound as an input texture. -/
theorem c2_coarsest_active_binds_inactive_level :
    getTexture (init 800 600 6) 3 = some BufVal.uninit ∧
    ∃ e ∈ (compute (init 800 600 6) 3).2, e.level = 2 ∧ e.prevBound = some 3 := by
  decide

/-- C3 counterexample: with `numCascades = 2` and `activeCascades = 5`, the
`compute` loop runs over levels `4, 3, 2, 1, 0` — the argument is not
clamped to `[0, 2]` — and the iterations at levels `4, 3, 2` read
`cascadeWidths[i]` out of bounds (modelled as `none`). -/
theorem c3_no_clamping_counterexample :
    ((compute (init 800 600 2) 5).2.map PassEvent.level = [4, 3, 2, 1, 0]) ∧
    (∃ e ∈ (compute (init 800 600 2) 5).2, e.resX = none ∧ 2 ≤ e.level) := by
  decide

/-- C3 (amended): `compute` and `blur` do not clamp `activeCascades`; only
the `-1` sentinel is replaced by `numCascades`. The levels visited are
exactly `a-1` down to `0` (so a value `< -1` yields no iterations, behaving
like `0`); when the resolved value is at most `numCascades` every
per-cascade vector access is in bounds, and when it exceeds `numCascades`
the call performs an out-of-bounds vector access instead of clamping. -/
theorem c3_active_cascades_not_clamped (s : GIState) (hwf : WF s) (a : Int) :
    ((compute s a).2.map PassEvent.level
      = (List.range (if a = -1 then (s.n : Int) else a).toNat).reverse) ∧
    ((blur s a).2.map BlurEvent.level
      = List.range (if a = -1 then (s.n : Int) else a).toNat) ∧
    ((if a = -1 then (s.n : Int) else a) ≤ (s.n : Int) →
      ∀ e ∈ (compute s a).2, e.resX.isSome ∧ e.resY.isSome) ∧
    ((s.n : Int) < (if a = -1 then (s.n : Int) else a) →
      ∃ e ∈ (compute s a).2, e.resX = none) := by
  set a' : Int := if a = -1 then (s.n : Int) else a with ha'
  have htrace : (compute s a).2 = (computeAux s.frameCounter s
      ((List.range a'.toNat).reverse)).2 := rfl
  refine ⟨?_, ?_, ?_, ?_⟩
  · rw [htrace, computeAux_map_level]
  · show (blurAux s (List.range a'.toNat)).2.map BlurEvent.level = _
    rw [blurAux_map_level]
  · intro hle e he
    rw [htrace] at he
    have hev := computeAux_events s.frameCounter s _ e he
    have hlev : e.level ∈ ((computeAux s.frameCounter s
        ((List.range a'.toNat).reverse)).2).map PassEvent.level :=
      List.mem_map_of_mem PassEvent.level he
    rw [computeAux_map_level, List.mem_reverse, List.mem_range] at hlev
    have hn : e.level < s.n := by omega
    constructor
    · rw [hev.2.2.1, List.getElem?_eq_getElem (by rw [hwf.1]; exact hn)]
      rfl
    · rw [hev.2.2.2, List.getElem?_eq_getElem (by rw [hwf.2.1]; exact hn)]
      rfl
  · intro hgt
    have hk : s.n < a'.toNat := by omega
    have hmem : a'.toNat - 1 ∈ ((computeAux s.frameCounter s
        ((List.range a'.toNat).reverse)).2).map PassEvent.level := by
      rw [computeAux_map_level, List.mem_reverse, List.mem_range]
      omega
    obtain ⟨e, he, hlev⟩ := List.mem_map.mp hmem
    refine ⟨e, htrace ▸ he, ?_⟩
    have hev := computeAux_events s.frameCounter s _ e he
    rw [hev.2.2.1, hlev]
    exact List.getElem?_eq_none (by rw [hwf.1]; omega)

/-- Witness for `c3_active_cascades_not_clamped` at a concrete engine and
`activeCascades = 1`. -/
theorem c3_active_cascades_not_clamped_witness :
    WF (init 800 600 2) ∧
    (compute (init 800 600 2) 1).2.map PassEvent.level = [0] := by
  refine ⟨by unfold WF; decide, ?_⟩
  exact ((c3_active_cascades_not_clamped (init 800 600 2)
    (by unfold WF; decide) 1).1).trans (by decide)

/-- C6: for an active count `a` in `[1, numCascades]`, the `compute` loop
visits the levels in strictly decreasing order `a-1` down to `0`, and each
level `i` receives distance bounds `minDist = 2^i`, `maxDist = 2^(i+1)`,
giving contiguous non-overlapping bands across levels. -/
theorem c6_coarse_to_fine_distance_bands (s : GIState) (a : Int)
    (h1 : 1 ≤ a) (h2 : a ≤ (s.n : Int)) :
    ((compute s a).2.map PassEvent.level = (List.range a.toNat).reverse) ∧
    List.Pairwise (fun x y => y < x) ((compute s a).2.map PassEvent.level) ∧
    ∀ e ∈ (compute s a).2, e.minDist = 2 ^ e.level ∧ e.maxDist = 2 ^ (e.level + 1) := by
  have hne : a ≠ -1 := by omega
  have htrace : (compute s a).2 = (computeAux s.frameCounter s
      ((List.range a.toNat).reverse)).2 := by
    simp only [compute, activeLevelsDesc, if_neg hne]
  have hmap : (compute s a).2.map PassEvent.level = (List.range a.toNat).reverse := by
    rw [htrace, computeAux_map_level]
  refine ⟨hmap, ?_, ?_⟩
  · rw [hmap]
    exact List.pairwise_reverse.mpr (List.pairwise_lt_range a.toNat)
  · intro e he
    rw [htrace] at he
    have hev := computeAux_events s.frameCounter s _ e he
    exact ⟨hev.1, hev.2.1⟩

/-- Witness for `c6_coarse_to_fine_distance_bands` at `numCascades = 3`,
`activeCascades = 2`. -/
theorem c6_coarse_to_fine_distance_bands_witness :
    (compute (init 800 600 3) 2).2.map PassEvent.level = [1, 0] :=
  ((c6_coarse_to_fine_distance_bands (init 800 600 3) 2 (by norm_num)
    (by decide)).1).trans (by decide)

/-- C4: after `resize(w, h)` the cascade accessors return exactly the
resolution schedule applied to the new dimensions, the frame counter is
zero, the operation is `cleanup()` followed by the full re-setup, and the
resulting state is wholly determined by the new dimensions together with
the retained configuration (it equals a freshly constructed engine except
for the preserved `useTemporalBuffer` flag) — no partially-resized state
remains. -/
theorem c4_resize_full_reset (s : GIState) (w h : Nat) :
    (resize s w h).frameCounter = 0 ∧
    (∀ i, i < s.n →
      getCascadeWidth (resize s w h) i = some (cascadeRes w i) ∧
      getCascadeHeight (resize s w h) i = some (cascadeRes h i)) ∧
    resize s w h
      = setupAll (cleanup { s with screenW := w, screenH := h, frameCounter := 0 }) ∧
    resize s w h = { init w h s.n with useTemporalBuffer := s.useTemporalBuffer } := by
  refine ⟨rfl, ?_, rfl, rfl⟩
  intro i hi
  constructor
  · simp [getCascadeWidth, resize, setupAll, cleanup, List.getElem?_map,
      List.getElem?_range, hi]
  · simp [getCascadeHeight, resize, setupAll, cleanup, List.getElem?_map,
      List.getElem?_range, hi]

/-- Witness for `c4_resize_full_reset`: resize a 800×600, 4-cascade engine
to 640×480 and read back cascade 2's width (`640*3>>2 = 480`). -/
theorem c4_resize_full_reset_witness :
    (resize (init 800 600 4) 640 480).frameCounter = 0 ∧
    getCascadeWidth (resize (init 800 600 4) 640 480) 2 = some 480 :=
  ⟨(c4_resize_full_reset (init 800 600 4) 640 480).1,
    (((c4_resize_full_reset (init 800 600 4) 640 480).2.1 2 (by decide)).1).trans
      (by decide)⟩

/-- C5: disabling temporal accumulation immediately performs a full
temporal reset (it equals `resetTemporalAccumulation` on the state with the
flag cleared): the frame counter becomes zero and every one of the
`numCascades` temporal buffers is cleared to zero; `resetTemporalAccumulation`
itself always zeros the counter and clears every temporal buffer. -/
theorem c5_disable_triggers_full_reset (s : GIState) (hwf : WF s) :
    (setTemporalAccumulation s false).frameCounter = 0 ∧
    (∀ i, i < s.n →
      (setTemporalAccumulation s false).temporalBuf[i]? = some BufVal.zero) ∧
    (resetTemporalAccumulation s).frameCounter = 0 ∧
    (∀ i, i < s.n →
      (resetTemporalAccumulation s).temporalBuf[i]? = some BufVal.zero) ∧
    setTemporalAccumulation s false
      = resetTemporalAccumulation { s with useTemporalBuffer := false } := by
  refine ⟨rfl, ?_, rfl, ?_, rfl⟩
  · intro i hi
    exact clearFold_getElem s.temporalBuf s.n i hi (by rw [hwf.2.2.2]; exact hi)
  · intro i hi
    exact clearFold_getElem s.temporalBuf s.n i hi (by rw [hwf.2.2.2]; exact hi)

/-- Witness for `c5_disable_triggers_full_reset` at a concrete engine. -/
theorem c5_disable_triggers_full_reset_witness :
    WF (init 800 600 3) ∧
    (setTemporalAccumulation (init 800 600 3) false).temporalBuf[1]?
      = some BufVal.zero := by
  refine ⟨by unfold WF; decide, ?_⟩
  exact (c5_disable_triggers_full_reset (init 800 600 3)
    (by unfold WF; decide)).2.1 1 (by decide)

/-- Operation sequence refuting claim C7: construct the engine, disable
temporal accumulation (this resets), run one `compute` (the frame counter
rises to 1 but, accumulation being disabled, nothing is copied into the
temporal buffers), then re-enable accumulation (no reset is performed). -/
def c7State : GIState :=
  setTemporalAccumulation
    ((compute (setTemporalAccumulation (init 800 600 2) false) 2).1) true

/-- C7: after the `c7State` sequence — disable (reset), compute, re-enable —
the next `compute` call runs with `useTemporalBuffer` set and
`frameCounter > 0`, so it binds the temporal buffers as valid history even
though they still hold the zero-cleared reset value and no compute call has
copied a cascade result into them since the most recent reset. This refutes
the claim that a bound temporal buffer always holds history copied by a
prior compute since the last reset. -/
theorem c7_reenable_reads_cleared_history :
    (c7State.useTemporalBuffer = true ∧ 0 < c7State.frameCounter) ∧
    (∀ i, i < c7State.n → c7State.temporalBuf[i]? = some BufVal.zero) ∧
    (∃ e ∈ (compute c7State 2).2, e.temporalBound = some (0, BufVal.zero)) := by
  decide

/-- C8: running the setup routines, then `cleanup()`, then the setup
routines again yields per-cascade dimension and format vectors identical to
the first setup's, and both are the deterministic schedule applied to the
stored parameters — no drift across setup/cleanup cycles. -/
theorem c8_setup_cleanup_setup_deterministic (s : GIState) :
    (setupAll (cleanup (setupAll s))).cascadeW = (setupAll s).cascadeW ∧
    (setupAll (cleanup (setupAll s))).cascadeH = (setupAll s).cascadeH ∧
    (setupAll (cleanup (setupAll s))).cascadeFmt = (setupAll s).cascadeFmt ∧
    (∀ i, i < s.n →
      (setupAll (cleanup (setupAll s))).cascadeW[i]? = some (cascadeRes s.screenW i) ∧
      (setupAll (cleanup (setupAll s))).cascadeH[i]? = some (cascadeRes s.screenH i) ∧
      (setupAll (cleanup (setupAll s))).cascadeFmt[i]? = some (cascadeFormat i)) := by
  refine ⟨rfl, rfl, rfl, ?_⟩
  intro i hi
  refine ⟨?_, ?_, ?_⟩ <;>
    simp [setupAll, cleanup, List.getElem?_map, List.getElem?_range, hi]

/-- Witness for `c8_setup_cleanup_setup_deterministic` at a concrete
engine, cascade 2: dimension `600*3>>2 = 450` and format `GL_RGBA16F`. -/
theorem c8_setup_cleanup_setup_deterministic_witness :
    (setupAll (cleanup (setupAll (init 800 600 4)))).cascadeW
      = (setupAll (init 800 600 4)).cascadeW ∧
    (setupAll (cleanup (setupAll (init 800 600 4)))).cascadeFmt[2]?
      = some TexFormat.rgba16f :=
  ⟨(c8_setup_cleanup_setup_deterministic (init 800 600 4)).1,
    (((c8_setup_cleanup_setup_deterministic (init 800 600 4)).2.2.2 2
      (by decide)).2.2).trans (by decide)⟩

/-- C9: a `compute` call with `0 ≤ activeCascades = a ≤ numCascades` writes
only to cascade render targets and temporal buffers with level in `[0, a)`
(the visited levels are exactly `a-1` down to `0`); every cascade buffer
and temporal buffer with index `≥ a` holds exactly its previous contents
afterwards. -/
theorem c9_inactive_levels_untouched (s : GIState) (a : Int)
    (h0 : 0 ≤ a) (h2 : a ≤ (s.n : Int)) :
    ((compute s a).2.map PassEvent.level = (List.range a.toNat).reverse) ∧
    ∀ j : Nat, a ≤ (j : Int) →
      (compute s a).1.cascadeBuf[j]? = s.cascadeBuf[j]? ∧
      (compute s a).1.temporalBuf[j]? = s.temporalBuf[j]? := by
  have hne : a ≠ -1 := by omega
  have hlv : activeLevelsDesc s.n a = (List.range a.toNat).reverse := by
    simp only [activeLevelsDesc, if_neg hne]
  constructor
  · show (computeAux s.frameCounter s (activeLevelsDesc s.n a)).2.map
      PassEvent.level = _
    rw [hlv, computeAux_map_level]
  · intro j hj
    have hja : a.toNat ≤ j := by omega
    have hpres := computeAux_preserves_get s.frameCounter s
      (activeLevelsDesc s.n a) j (by
        intro i hi
        rw [hlv, List.mem_reverse, List.mem_range] at hi
        omega)
    exact hpres

/-- Witness for `c9_inactive_levels_untouched`: with `numCascades = 6` and
`activeCascades = 3`, cascade buffer 4 still holds its initial
(uninitialised) allocation after the call. -/
theorem c9_inactive_levels_untouched_witness :
    (compute (init 800 600 6) 3).1.cascadeBuf[4]?
      = (init 800 600 6).cascadeBuf[4]? ∧
    (compute (init 800 600 6) 3).1.temporalBuf[4]?
      = (init 800 600 6).temporalBuf[4]? :=
  (c9_inactive_levels_untouched (init 800 600 6) 3 (by norm_num)
    (by decide)).2 4 (by norm_num)

/-- C10: the cascade accessors are unchecked vector indexing. For every
index in `[0, numCascades)` they return the index-th stored
dimension/handle (on a fresh engine: the schedule value, the uninitialised
texture allocation, and the FBO attached to that cascade's texture); for
every index outside that range the access is out of bounds — modelled as
`none`, there is no clamping and no in-band error value — so the caller
must establish the precondition. -/
theorem c10_accessors_unchecked (w h n c : Nat) :
    (c < n →
      getCascadeWidth (init w h n) c = some (cascadeRes w c) ∧
      getCascadeHeight (init w h n) c = some (cascadeRes h c) ∧
      getTexture (init w h n) c = some BufVal.uninit ∧
      getCascadeFBO (init w h n) c = some c) ∧
    (n ≤ c →
      getCascadeWidth (init w h n) c = none ∧
      getCascadeHeight (init w h n) c = none ∧
      getTexture (init w h n) c = none ∧
      getCascadeFBO (init w h n) c = none) := by
  constructor
  · intro hc
    refine ⟨init_cascadeW_get w h n c hc, init_cascadeH_get w h n c hc, ?_, ?_⟩
    · simp [getTexture, init, setupAll, List.getElem?_replicate, hc]
    · simp [getCascadeFBO, init, setupAll, List.getElem?_range, hc]
  · intro hc
    refine ⟨?_, ?_, ?_, ?_⟩ <;>
      · apply List.getElem?_eq_none
        simp [init, setupAll, getCascadeWidth, getCascadeHeight, getTexture,
          getCascadeFBO, hc]

/-- Witness for `c10_accessors_unchecked` at `n = 3` with one in-range and
one out-of-range index. -/
theorem c10_accessors_unchecked_witness :
    (getCascadeWidth (init 800 600 3) 2 = some 600 ∧
      getCascadeFBO (init 800 600 3) 2 = some 2) ∧
    (getCascadeWidth (init 800 600 3) 5 = none ∧
      getTexture (init 800 600 3) 5 = none) := by
  have hin := (c10_accessors_unchecked 800 600 3 2).1 (by norm_num)
  have hout := (c10_accessors_unchecked 800 600 3 5).2 (by norm_num)
  exact ⟨⟨hin.1.trans (by decide), hin.2.2.2⟩, hout.1, hout.2.2.1⟩

end VibeGI
